import Mathlib

set_option maxRecDepth 8000

/-!
Shallow embedding of the blueshift-escrow program (src/lib.rs, src/helpers.rs,
src/instructions/{make,take,refund}.rs) for checking its natural-language
specification.

Modelling choices, stated once:

* Addresses.  On chain an address is a 32-byte value; program-derived
  addresses (PDAs) are produced by a collision-resistant hash of a seed
  list and a program id.  We model addresses as an inductive type with a
  constructor `raw` for ordinary (keypair) addresses and a constructor
  `pda` applied to the seed list and the program id.  Injectivity of the
  `pda` constructor models collision resistance of the derivation, and the
  disjointness of `raw` and `pda` models the infeasibility of producing a
  keypair at a derived address.  A byte-string seed (the literal b"escrow",
  a u64 in little-endian bytes, a bump byte) is embedded as `raw` of its
  byte list; an address seed is embedded as the address itself.

* The derivation service is an external collaborator (spec, section 6);
  `find_program_address` canonically resolves to bump 255 in the model and
  `create_program_address` is total (its on-curve failure mode is not
  reachable by any property considered here, which all condition on the
  derived value).

* Machine integers (u64, bytes) are `Nat`s; the only arithmetic the
  program performs on them is decoding/encoding little-endian bytes and
  token-balance bookkeeping, which the host token service checks for
  sufficiency before subtracting, so no wrap-around arises.

* Cross-program invocations (system account creation, token transfer,
  token account close, associated-token-account creation) are external
  collaborator services; they are modelled from their documented behaviour
  as `Ledger`-transformers that also emit an `Effect` trace, and they
  verify PDA signing: a CPI signed with seed list `s` grants signer
  authority exactly to `createProgramAddress s programID`.

* Errors abort the enclosing transaction; an `Except.error` result
  produces no ledger and no effect trace, matching the host's rollback.
-/

namespace Blueshift

/-- Addresses: `raw` for ordinary byte addresses, `pda` for
program-derived addresses over a seed list and a program id. -/
inductive Address where
  | raw : List Nat → Address
  | pda : List Address → Address → Address

mutual

def Address.decEq : (a b : Address) → Decidable (a = b)
  | Address.raw x, Address.raw y =>
    if h : x = y then isTrue (h ▸ rfl) else isFalse (fun c => h (Address.raw.inj c))
  | Address.raw _, Address.pda _ _ => isFalse (fun c => Address.noConfusion c)
  | Address.pda _ _, Address.raw _ => isFalse (fun c => Address.noConfusion c)
  | Address.pda s p, Address.pda t q =>
    match Address.decEqList s t with
    | isFalse hs => isFalse (fun c => hs (Address.pda.inj c).1)
    | isTrue hs =>
      match Address.decEq p q with
      | isFalse hp => isFalse (fun c => hp (Address.pda.inj c).2)
      | isTrue hp => isTrue (by rw [hs, hp])

def Address.decEqList : (a b : List Address) → Decidable (a = b)
  | [], [] => isTrue rfl
  | [], _ :: _ => isFalse (fun c => List.noConfusion c)
  | _ :: _, [] => isFalse (fun c => List.noConfusion c)
  | a :: as, b :: bs =>
    match Address.decEq a b with
    | isFalse h => isFalse (fun c => h (List.cons.inj c).1)
    | isTrue h =>
      match Address.decEqList as bs with
      | isFalse h2 => isFalse (fun c => h2 (List.cons.inj c).2)
      | isTrue h2 => isTrue (by rw [h, h2])

end

instance : DecidableEq Address := Address.decEq

/-- The program id `crate::ID` (lib.rs), an ordinary base58 address;
its concrete bytes are irrelevant to every property proved here. -/
def programID : Address := Address.raw [22, 22, 22, 22]

/-- `pinocchio_system::ID`, the base ledger system program. -/
def systemProgramID : Address := Address.raw [0]

/-- `pinocchio_token::ID`, the classic token program. -/
def tokenProgramID : Address := Address.raw [6, 167, 213]

/-- `TOKEN_2022_PROGRAM_ID` (helpers.rs), the extended-standard token
program, with the byte string the source spells out. -/
def TOKEN_2022_PROGRAM_ID : Address := Address.raw [
  0x06, 0xdd, 0xf6, 0xe1, 0xee, 0x75, 0x8f, 0xde, 0x18, 0x42, 0x5d, 0xbc,
  0xe4, 0x6c, 0xcd, 0xda, 0xb6, 0x1a, 0xfc, 0x4d, 0x83, 0xb9, 0x0d, 0x27,
  0xfe, 0xbd, 0xf9, 0x28, 0xd8, 0xa1, 0x8b, 0xfc]

/-- `pinocchio_associated_token_account::ID`, the associated-token
derivation program. -/
def associatedTokenProgramID : Address := Address.raw [140, 151]

/-- `create_program_address(seeds, program_id)`: deterministic derivation
of a PDA from the full seed list (bump included). -/
def createProgramAddress (seeds : List Address) (programId : Address) : Address :=
  Address.pda seeds programId

/-- `find_program_address(seeds, program_id)`: canonical derivation,
returning the derived address together with the completing bump;
the model resolves the canonical bump to 255. -/
def findProgramAddress (seeds : List Address) (programId : Address) : Address × Nat :=
  (createProgramAddress (seeds ++ [Address.raw [255]]) programId, 255)

/-- The error taxonomy (`pinocchio::error::ProgramError` plus the token
service's failure modes used by the model).  `AccountAlreadyInUse` stands
for the source's already-populated-account error (make.rs line 57). -/
inductive ProgramError where
  | MissingRequiredSignature
  | IllegalOwner
  | InvalidAccountData
  | InvalidArgument
  | AccountAlreadyInUse
  | NotEnoughAccountKeys
  | InvalidInstructionData
  | InvalidAccountOwner
  | UnfundedAccount
  | InsufficientTokenFunds
  | TokenMintMismatch
  | NonEmptyTokenAccount
deriving DecidableEq

/-- An account as an instruction sees it (`pinocchio::AccountView`):
address, owning program, transaction-signer flag, lamport balance, and
raw data bytes. -/
structure AccountView where
  address : Address
  owner : Address
  isSigner : Bool
  lamports : Nat
  data : List Nat
deriving DecidableEq

/-- `account.data_len()`. -/
def AccountView.dataLen (a : AccountView) : Nat := a.data.length

/-- `pinocchio_token::state::Mint::LEN` (classic fixed mint-record size). -/
def mintLEN : Nat := 82

/-- `pinocchio_token::state::TokenAccount::LEN` (classic fixed
holding-record size). -/
def tokenAccountLEN : Nat := 165

/-- `TOKEN_2022_ACCOUNT_DISCRIMINATOR_OFFSET` (helpers.rs line 188). -/
def TOKEN_2022_ACCOUNT_DISCRIMINATOR_OFFSET : Nat := 165

/-- `TOKEN2022_MINT_DISCRIMINATOR` (helpers.rs line 189). -/
def TOKEN2022_MINT_DISCRIMINATOR : Nat := 0x01

/-- `TOKEN_2022_TOKEN_ACCOUNT_DISCRIMINATOR` (helpers.rs line 190). -/
def TOKEN_2022_TOKEN_ACCOUNT_DISCRIMINATOR : Nat := 0x02

/-- Modelled from the spec: the escrow-record size, `Escrow::LEN` of the
missing src/state.rs — seed (8 bytes LE) + maker (32) + mint_a (32) +
mint_b (32) + receive (8 bytes LE) + bump (1) = 113 bytes. -/
def escrowLEN : Nat := 113

/-- `SignerAccount::check` (helpers.rs lines 11-19). -/
def SignerAccount.check (account : AccountView) : Except ProgramError Unit :=
  if account.isSigner = false then Except.error ProgramError.MissingRequiredSignature
  else Except.ok ()

/-- `SystemAccount::check` (helpers.rs lines 21-29). -/
def SystemAccount.check (account : AccountView) : Except ProgramError Unit :=
  if account.owner ≠ systemProgramID then Except.error ProgramError.IllegalOwner
  else Except.ok ()

/-- `MintAccount::check` (helpers.rs lines 31-42). -/
def MintAccount.check (account : AccountView) : Except ProgramError Unit :=
  if account.owner ≠ tokenProgramID then Except.error ProgramError.IllegalOwner
  else if account.dataLen ≠ mintLEN then Except.error ProgramError.InvalidAccountData
  else Except.ok ()

/-- `TokenAccount::check` (helpers.rs lines 114-128). -/
def TokenAccount.check (account : AccountView) : Except ProgramError Unit :=
  if account.owner ≠ tokenProgramID then Except.error ProgramError.IllegalOwner
  else if account.dataLen ≠ tokenAccountLEN then Except.error ProgramError.InvalidAccountData
  else Except.ok ()

/-- `Mint2022Account::check` (helpers.rs lines 191-208). -/
def Mint2022Account.check (account : AccountView) : Except ProgramError Unit :=
  if account.owner ≠ TOKEN_2022_PROGRAM_ID then Except.error ProgramError.IllegalOwner
  else if account.data.length ≠ mintLEN then
    if account.data.length ≤ TOKEN_2022_ACCOUNT_DISCRIMINATOR_OFFSET then
      Except.error ProgramError.InvalidAccountData
    else if account.data.getD TOKEN_2022_ACCOUNT_DISCRIMINATOR_OFFSET 0
        ≠ TOKEN2022_MINT_DISCRIMINATOR then
      Except.error ProgramError.InvalidAccountData
    else Except.ok ()
  else Except.ok ()

/-- `TokenAccount2022Account::check` (helpers.rs lines 257-276). -/
def TokenAccount2022Account.check (account : AccountView) : Except ProgramError Unit :=
  if account.owner ≠ TOKEN_2022_PROGRAM_ID then Except.error ProgramError.IllegalOwner
  else if account.data.length ≠ tokenAccountLEN then
    if account.data.length ≤ TOKEN_2022_ACCOUNT_DISCRIMINATOR_OFFSET then
      Except.error ProgramError.InvalidAccountData
    else if account.data.getD TOKEN_2022_ACCOUNT_DISCRIMINATOR_OFFSET 0
        ≠ TOKEN_2022_TOKEN_ACCOUNT_DISCRIMINATOR then
      Except.error ProgramError.InvalidAccountData
    else Except.ok ()
  else Except.ok ()

/-- `MintInterface::check` (helpers.rs lines 316-340). -/
def MintInterface.check (account : AccountView) : Except ProgramError Unit :=
  let isToken2022 := account.owner = TOKEN_2022_PROGRAM_ID
  let isSplToken := account.owner = tokenProgramID
  if ¬ isToken2022 ∧ ¬ isSplToken then Except.error ProgramError.IllegalOwner
  else if isSplToken then
    if account.data.length ≠ mintLEN then Except.error ProgramError.InvalidAccountData
    else Except.ok ()
  else if isToken2022 then
    if account.data.length ≤ TOKEN_2022_ACCOUNT_DISCRIMINATOR_OFFSET then
      Except.error ProgramError.InvalidAccountData
    else if account.data.getD TOKEN_2022_ACCOUNT_DISCRIMINATOR_OFFSET 0
        ≠ TOKEN2022_MINT_DISCRIMINATOR then
      Except.error ProgramError.InvalidAccountData
    else Except.ok ()
  else Except.ok ()

/-- `TokenAccountInterface::check` (helpers.rs lines 341-367). -/
def TokenAccountInterface.check (account : AccountView) : Except ProgramError Unit :=
  let isToken2022 := account.owner = TOKEN_2022_PROGRAM_ID
  let isSplToken := account.owner = tokenProgramID
  if ¬ isSplToken ∧ ¬ isToken2022 then Except.error ProgramError.IllegalOwner
  else if isSplToken then
    if account.data.length ≠ tokenAccountLEN then Except.error ProgramError.InvalidAccountData
    else Except.ok ()
  else if isToken2022 then
    if account.data.length ≤ TOKEN_2022_ACCOUNT_DISCRIMINATOR_OFFSET then
      Except.error ProgramError.InvalidAccountData
    else if account.data.getD TOKEN_2022_ACCOUNT_DISCRIMINATOR_OFFSET 0
        ≠ TOKEN_2022_TOKEN_ACCOUNT_DISCRIMINATOR then
      Except.error ProgramError.InvalidAccountData
    else Except.ok ()
  else Except.ok ()

/-- `AssociatedTokenAccount::check` (helpers.rs lines 378-401): holding
check, then the deterministic associated address recomputed from
(authority, token-program, mint) must match exactly. -/
def AssociatedTokenAccount.check (account authority mint tokenProgram : AccountView) :
    Except ProgramError Unit :=
  match TokenAccount.check account with
  | Except.error e => Except.error e
  | Except.ok _ =>
    if (findProgramAddress
          [authority.address, tokenProgram.address, mint.address]
          associatedTokenProgramID).1 ≠ account.address then
      Except.error ProgramError.InvalidArgument
    else Except.ok ()

/-- `ProgramAccount::check` (helpers.rs lines 513-524): owned by this
program and exactly escrow-record sized. -/
def ProgramAccount.check (account : AccountView) : Except ProgramError Unit :=
  if account.owner ≠ programID then Except.error ProgramError.InvalidAccountOwner
  else if account.dataLen ≠ escrowLEN then Except.error ProgramError.InvalidAccountData
  else Except.ok ()

/-- u64 → 8 little-endian bytes (`u64::to_le_bytes`). -/
def u64ToLeBytes (n : Nat) : List Nat :=
  (List.range 8).map (fun i => n / 256 ^ i % 256)

/-- 8 little-endian bytes → u64 (`u64::from_le_bytes`). -/
def u64FromLeBytes (bs : List Nat) : Nat :=
  bs.foldr (fun b acc => b % 256 + 256 * acc) 0

/-- The literal seed b"escrow". -/
def escrowTag : Address := Address.raw [101, 115, 99, 114, 111, 119]

/-- Modelled from the spec: the escrow record of the missing src/state.rs
(`Escrow`): seed, maker, mint_a, mint_b, receive, bump. -/
structure EscrowRecord where
  seed : Nat
  maker : Address
  mintA : Address
  mintB : Address
  receive : Nat
  bump : Nat
deriving DecidableEq

/-- The seed list `[b"escrow", maker, seed_LE, bump]` completing the
escrow PDA derivation, as Take/Refund rebuild it from a stored record
and a supplied maker address. -/
def escrowSeeds (maker : Address) (seed bump : Nat) : List Address :=
  [escrowTag, maker, Address.raw (u64ToLeBytes seed), Address.raw [bump]]

/-- The canonical escrow address the record's own invariant (spec,
section 3) requires: derived from the record's stored maker, seed and
bump under the program id. -/
def canonicalEscrowAddress (rec : EscrowRecord) : Address :=
  createProgramAddress (escrowSeeds rec.maker rec.seed rec.bump) programID

/-- Token-level content of a fungible-token holding account: its mint,
its authority (token-level owner) and its balance. -/
structure TokenAccountState where
  mint : Address
  authority : Address
  amount : Nat
deriving DecidableEq

/-- On-ledger state the operations read and write: lamport balances,
token-holding accounts (by address), and this program's escrow records
(by address). -/
structure Ledger where
  lamports : Address → Nat
  tokenAcct : Address → Option TokenAccountState
  escrowAcct : Address → Option EscrowRecord

/-- Modelled from the spec: the rent-exempt minimum balance for a record
of the given size, an external parameter of the ledger system service;
its concrete value is irrelevant to every property proved here. -/
def rentMinimum (space : Nat) : Nat := space + 1

/-- Observable cross-service effects, in invocation order. -/
inductive Effect where
  | accountCreated (addr : Address) (space : Nat) (owner : Address)
  | ataCreated (addr mint wallet payer : Address)
  | escrowWritten (addr : Address) (rec : EscrowRecord)
  | tokenTransfer (source dest authority : Address) (amount : Nat) (pdaSigned : Bool)
  | tokenAccountClosed (addr dest : Address) (reclaimed : Nat)
  | tombstoneWritten (addr : Address)
  | lamportsMoved (source dest : Address) (amount : Nat)
  | resized (addr : Address) (len : Nat)
  | released (addr : Address)
deriving DecidableEq

/-- Does the given optional PDA seed list grant signer authority for
address `a`?  A CPI signed with seeds `s` signs exactly as
`createProgramAddress s programID`. -/
def pdaSignerMatches (seeds : Option (List Address)) (a : Address) : Bool :=
  match seeds with
  | none => false
  | some s => decide (createProgramAddress s programID = a)

/-- An authority satisfies a CPI's signature requirement if it signed the
transaction or the invoking program signed for it with matching seeds. -/
def authoritySigned (authority : AccountView) (seeds : Option (List Address)) : Bool :=
  authority.isSigner || pdaSignerMatches seeds authority.address

/-- Modelled from the spec: the fungible-token service's balance
transfer (`pinocchio_token::instructions::Transfer`): source and
destination must exist as holding accounts of the same mint, the
authority must be the source's token-level owner and must have signed
(directly or via PDA seeds), and the source balance must suffice. -/
def transferCpi (l : Ledger) (source dest authority : AccountView) (amount : Nat)
    (seeds : Option (List Address)) : Except ProgramError (Ledger × List Effect) :=
  match l.tokenAcct source.address, l.tokenAcct dest.address with
  | some s, some _ =>
    if s.authority ≠ authority.address then Except.error ProgramError.IllegalOwner
    else if authoritySigned authority seeds = false then
      Except.error ProgramError.MissingRequiredSignature
    else if s.amount < amount then Except.error ProgramError.InsufficientTokenFunds
    else
      match Function.update l.tokenAcct source.address
          (some { s with amount := s.amount - amount }) dest.address with
      | some d =>
        if s.mint ≠ d.mint then Except.error ProgramError.TokenMintMismatch
        else
          let newMap := Function.update
            (Function.update l.tokenAcct source.address
              (some { s with amount := s.amount - amount }))
            dest.address (some { d with amount := d.amount + amount })
          Except.ok ({ l with tokenAcct := newMap },
            [Effect.tokenTransfer source.address dest.address authority.address amount
              (pdaSignerMatches seeds authority.address)])
      | none => Except.error ProgramError.UnfundedAccount
  | _, _ => Except.error ProgramError.UnfundedAccount

/-- Modelled from the spec: the fungible-token service's holding-account
decommission (`pinocchio_token::instructions::CloseAccount`): the account
must exist, be fully drained, and its token-level owner must have signed;
its whole lamport balance moves to the destination and the holding
account is removed. -/
def closeTokenCpi (l : Ledger) (account dest authority : AccountView)
    (seeds : Option (List Address)) : Except ProgramError (Ledger × List Effect) :=
  match l.tokenAcct account.address with
  | some s =>
    if s.authority ≠ authority.address then Except.error ProgramError.IllegalOwner
    else if authoritySigned authority seeds = false then
      Except.error ProgramError.MissingRequiredSignature
    else if s.amount ≠ 0 then Except.error ProgramError.NonEmptyTokenAccount
    else
      let reclaimed := l.lamports account.address
      Except.ok ({ l with
          tokenAcct := Function.update l.tokenAcct account.address none,
          lamports := Function.update
            (Function.update l.lamports dest.address (l.lamports dest.address + reclaimed))
            account.address 0 },
        [Effect.tokenAccountClosed account.address dest.address reclaimed])
  | none => Except.error ProgramError.UnfundedAccount

/-- Modelled from the spec: the ledger system service's account creation
(`CreateAccount` via `create_account_with_minimum_balance_signed`),
invoked by Make to create the escrow account owned by this program: the
target must sign (here via the PDA seeds), must be vacant, and the payer
must sign and fund the rent-exempt minimum.  The fresh program account's
zeroed data is modelled as a zeroed escrow record. -/
def createEscrowAccountCpi (l : Ledger) (payer account : AccountView) (space : Nat)
    (seeds : Option (List Address)) : Except ProgramError (Ledger × List Effect) :=
  if authoritySigned account seeds = false then
    Except.error ProgramError.MissingRequiredSignature
  else if payer.isSigner = false then Except.error ProgramError.MissingRequiredSignature
  else if l.escrowAcct account.address ≠ none ∨ l.tokenAcct account.address ≠ none
      ∨ l.lamports account.address ≠ 0 then
    Except.error ProgramError.AccountAlreadyInUse
  else if l.lamports payer.address < rentMinimum space then
    Except.error ProgramError.UnfundedAccount
  else
    Except.ok ({ l with
        lamports := Function.update
          (Function.update l.lamports payer.address
            (l.lamports payer.address - rentMinimum space))
          account.address (rentMinimum space),
        escrowAcct := Function.update l.escrowAcct account.address
          (some ⟨0, Address.raw [], Address.raw [], Address.raw [], 0, 0⟩) },
      [Effect.accountCreated account.address space programID])

/-- Modelled from the spec: the associated-token service's dedicated
creation call (`pinocchio_associated_token_account::instructions::Create`):
the target address must be the canonical associated address of
(wallet, token-program, mint), must be vacant, and the funding account
must sign and fund it; the fresh holding account belongs to the wallet
with a zero balance. -/
def ataCreateCpi (l : Ledger) (payer account wallet mint tokenProgram : AccountView) :
    Except ProgramError (Ledger × List Effect) :=
  if (findProgramAddress [wallet.address, tokenProgram.address, mint.address]
      associatedTokenProgramID).1 ≠ account.address then
    Except.error ProgramError.InvalidArgument
  else if payer.isSigner = false then Except.error ProgramError.MissingRequiredSignature
  else if l.tokenAcct account.address ≠ none then
    Except.error ProgramError.AccountAlreadyInUse
  else if l.lamports payer.address < rentMinimum tokenAccountLEN then
    Except.error ProgramError.UnfundedAccount
  else
    Except.ok ({ l with
        lamports := Function.update
          (Function.update l.lamports payer.address
            (l.lamports payer.address - rentMinimum tokenAccountLEN))
          account.address (rentMinimum tokenAccountLEN),
        tokenAcct := Function.update l.tokenAcct account.address
          (some ⟨mint.address, wallet.address, 0⟩) },
      [Effect.ataCreated account.address mint.address wallet.address payer.address])

/-- `AssociatedTokenAccount::init_if_needed` (helpers.rs lines 457-469):
run `check` first — with the PAYER in the authority position — and only
on check failure issue the dedicated creation call. -/
def AssociatedTokenAccount.initIfNeeded (l : Ledger)
    (account mint payer owner _systemProgram tokenProgram : AccountView) :
    Except ProgramError (Ledger × List Effect) :=
  match AssociatedTokenAccount.check account payer mint tokenProgram with
  | Except.ok _ => Except.ok (l, [])
  | Except.error _ => ataCreateCpi l payer account owner mint tokenProgram

/-- `ProgramAccount::close` (helpers.rs lines 557-568), in source order:
write the 0xff tombstone into the first data byte, move the whole
lamport balance to the destination, shrink the storage to one byte,
release the account.  Total: the model's single-threaded borrows cannot
fail. -/
def ProgramAccount.close (l : Ledger) (account dest : AccountView) :
    Ledger × List Effect :=
  let reclaimed := l.lamports account.address
  ({ l with
      lamports := Function.update
        (Function.update l.lamports dest.address (l.lamports dest.address + reclaimed))
        account.address 0,
      escrowAcct := Function.update l.escrowAcct account.address none },
    [Effect.tombstoneWritten account.address,
     Effect.lamportsMoved account.address dest.address reclaimed,
     Effect.resized account.address 1,
     Effect.released account.address])

/-- The `?` operator on a unit-valued check: propagate its error, or
continue. -/
def seqCheck {α : Type} (c : Except ProgramError Unit) (k : Except ProgramError α) :
    Except ProgramError α :=
  match c with
  | Except.error e => Except.error e
  | Except.ok _ => k

/-- `MakeAccounts` (make.rs lines 10-19). -/
structure MakeAccounts where
  maker : AccountView
  escrow : AccountView
  mintA : AccountView
  mintB : AccountView
  makerAtaA : AccountView
  vault : AccountView
  systemProgram : AccountView
  tokenProgram : AccountView
deriving DecidableEq

/-- `MakeAccounts::try_from` (make.rs lines 20-71): exactly nine
accounts (one trailing unchecked slot); the maker must have signed —
note the source returns IllegalOwner, not MissingRequiredSignature, on
that path; classic-mint checks on both mints; associated-account check
on the maker's mint-A holding; the vault address must equal the
canonical derivation (over the hardcoded classic token program id) and
must hold no data yet. -/
def MakeAccounts.tryFrom (accounts : List AccountView) : Except ProgramError MakeAccounts :=
  match accounts with
  | [maker, escrow, mintA, mintB, makerAtaA, vault, systemProgram, tokenProgram, _] =>
    if maker.isSigner = false then Except.error ProgramError.IllegalOwner
    else
      seqCheck (MintAccount.check mintA) <|
      seqCheck (MintAccount.check mintB) <|
      seqCheck (AssociatedTokenAccount.check makerAtaA maker mintA tokenProgram) <|
      let vaultKey := (findProgramAddress
        [escrow.address, tokenProgramID, mintA.address] associatedTokenProgramID).1
      if vault.address ≠ vaultKey then Except.error ProgramError.InvalidAccountOwner
      else if vault.data.isEmpty = false then Except.error ProgramError.AccountAlreadyInUse
      else Except.ok ⟨maker, escrow, mintA, mintB, makerAtaA, vault, systemProgram, tokenProgram⟩
  | _ => Except.error ProgramError.NotEnoughAccountKeys

/-- `MakeInstructionData` (make.rs lines 73-77). -/
structure MakeInstructionData where
  seed : Nat
  receive : Nat
  amount : Nat
deriving DecidableEq

/-- `MakeInstructionData::try_from` (make.rs lines 78-97): exactly 24
payload bytes, three little-endian u64s; a zero amount is rejected with
InvalidInstructionData. -/
def MakeInstructionData.tryFrom (data : List Nat) : Except ProgramError MakeInstructionData :=
  if data.length ≠ 24 then Except.error ProgramError.InvalidInstructionData
  else
    let seed := u64FromLeBytes (data.take 8)
    let receive := u64FromLeBytes ((data.drop 8).take 8)
    let amount := u64FromLeBytes (data.drop 16)
    if amount = 0 then Except.error ProgramError.InvalidInstructionData
    else Except.ok ⟨seed, receive, amount⟩

/-- `Make` (make.rs lines 99-103). -/
structure Make where
  accounts : MakeAccounts
  instructionData : MakeInstructionData
  bump : Nat

/-- `Make::try_from` (make.rs lines 104-148): validate accounts, then
the payload, then derive the canonical escrow bump, create the escrow
account under the derived signing capability, and create the vault as
the escrow's associated holding account. -/
def Make.tryFrom (l : Ledger) (data : List Nat) (accountList : List AccountView) :
    Except ProgramError (Make × Ledger × List Effect) :=
  match MakeAccounts.tryFrom accountList with
  | Except.error e => Except.error e
  | Except.ok accounts =>
    match MakeInstructionData.tryFrom data with
    | Except.error e => Except.error e
    | Except.ok idata =>
      let bump := (findProgramAddress
        [escrowTag, accounts.maker.address, Address.raw (u64ToLeBytes idata.seed)]
        programID).2
      let seeds := escrowSeeds accounts.maker.address idata.seed bump
      match createEscrowAccountCpi l accounts.maker accounts.escrow escrowLEN (some seeds) with
      | Except.error e => Except.error e
      | Except.ok (l1, t1) =>
        match ataCreateCpi l1 accounts.maker accounts.vault accounts.escrow
            accounts.mintA accounts.tokenProgram with
        | Except.error e => Except.error e
        | Except.ok (l2, t2) => Except.ok (⟨accounts, idata, bump⟩, l2, t1 ++ t2)

/-- `Make::process` (make.rs lines 150-172): populate the escrow record
(`Escrow::set_inner`, modelled from the spec as the full record write,
state.rs being absent from src/), then transfer exactly `amount` of
mint A from the maker's holding account into the vault, authorized by
the maker directly. -/
def Make.process (m : Make) (l : Ledger) : Except ProgramError (Ledger × List Effect) :=
  match l.escrowAcct m.accounts.escrow.address with
  | none => Except.error ProgramError.InvalidAccountData
  | some _ =>
    let newRec : EscrowRecord := ⟨m.instructionData.seed, m.accounts.maker.address,
      m.accounts.mintA.address, m.accounts.mintB.address, m.instructionData.receive, m.bump⟩
    let newMap := Function.update l.escrowAcct m.accounts.escrow.address (some newRec)
    let l1 := { l with escrowAcct := newMap }
    match transferCpi l1 m.accounts.makerAtaA m.accounts.vault m.accounts.maker
        m.instructionData.amount none with
    | Except.error e => Except.error e
    | Except.ok (l2, t2) =>
      Except.ok (l2, Effect.escrowWritten m.accounts.escrow.address newRec :: t2)

/-- One whole Make invocation (dispatcher path, lib.rs line 23). -/
def makeRun (l : Ledger) (data : List Nat) (accountList : List AccountView) :
    Except ProgramError (Ledger × List Effect) :=
  match Make.tryFrom l data accountList with
  | Except.error e => Except.error e
  | Except.ok (m, l1, t1) =>
    match Make.process m l1 with
    | Except.error e => Except.error e
    | Except.ok (l2, t2) => Except.ok (l2, t1 ++ t2)

/-- `TakeAccounts` (take.rs lines 10-22). -/
structure TakeAccounts where
  taker : AccountView
  maker : AccountView
  escrow : AccountView
  mintA : AccountView
  mintB : AccountView
  vault : AccountView
  takerAtaA : AccountView
  takerAtaB : AccountView
  makerAtaB : AccountView
  systemProgram : AccountView
  tokenProgram : AccountView
deriving DecidableEq

/-- `TakeAccounts::try_from` (take.rs lines 24-64): exactly twelve
accounts (one trailing unchecked slot); taker signer check, escrow
program-account check, interface checks on both mints, associated
checks on the taker's mint-B holding and on the vault. -/
def TakeAccounts.tryFrom (accounts : List AccountView) : Except ProgramError TakeAccounts :=
  match accounts with
  | [taker, maker, escrow, mintA, mintB, vault, takerAtaA, takerAtaB, makerAtaB,
      systemProgram, tokenProgram, _] =>
    seqCheck (SignerAccount.check taker) <|
    seqCheck (ProgramAccount.check escrow) <|
    seqCheck (MintInterface.check mintA) <|
    seqCheck (MintInterface.check mintB) <|
    seqCheck (AssociatedTokenAccount.check takerAtaB taker mintB tokenProgram) <|
    seqCheck (AssociatedTokenAccount.check vault escrow mintA tokenProgram) <|
    Except.ok ⟨taker, maker, escrow, mintA, mintB, vault, takerAtaA, takerAtaB, makerAtaB,
      systemProgram, tokenProgram⟩
  | _ => Except.error ProgramError.NotEnoughAccountKeys

/-- `Take::try_from` (take.rs lines 69-91): validate the account list,
then create the taker's mint-A holding account and the maker's mint-B
holding account on demand, both funded by the taker. -/
def Take.tryFrom (l : Ledger) (accountList : List AccountView) :
    Except ProgramError (TakeAccounts × Ledger × List Effect) :=
  match TakeAccounts.tryFrom accountList with
  | Except.error e => Except.error e
  | Except.ok v =>
    match AssociatedTokenAccount.initIfNeeded l v.takerAtaA v.mintA v.taker v.taker
        v.systemProgram v.tokenProgram with
    | Except.error e => Except.error e
    | Except.ok (l1, t1) =>
      match AssociatedTokenAccount.initIfNeeded l1 v.makerAtaB v.mintB v.taker v.maker
          v.systemProgram v.tokenProgram with
      | Except.error e => Except.error e
      | Except.ok (l2, t2) => Except.ok (v, l2, t1 ++ t2)

/-- `Take::process` (take.rs lines 95-147): re-derive the escrow's
canonical address from the stored seed, bump and the supplied maker and
require it to equal the supplied escrow account's address (mismatch:
InvalidAccountOwner, before any transfer); then move the vault's whole
balance to the taker's mint-A holding under the escrow's derived signing
capability, decommission the vault to the maker, move the stored
`receive` amount of mint B from taker to maker authorized by the taker,
and decommission the escrow account to the taker. -/
def Take.process (v : TakeAccounts) (l : Ledger) : Except ProgramError (Ledger × List Effect) :=
  match l.escrowAcct v.escrow.address with
  | none => Except.error ProgramError.InvalidAccountData
  | some er =>
    let escrowKey := createProgramAddress (escrowSeeds v.maker.address er.seed er.bump) programID
    if escrowKey ≠ v.escrow.address then Except.error ProgramError.InvalidAccountOwner
    else
      let seeds := escrowSeeds v.maker.address er.seed er.bump
      match l.tokenAcct v.vault.address with
      | none => Except.error ProgramError.InvalidAccountData
      | some vs =>
        match transferCpi l v.vault v.takerAtaA v.escrow vs.amount (some seeds) with
        | Except.error e => Except.error e
        | Except.ok (l1, t1) =>
          match closeTokenCpi l1 v.vault v.maker v.escrow (some seeds) with
          | Except.error e => Except.error e
          | Except.ok (l2, t2) =>
            match transferCpi l2 v.takerAtaB v.makerAtaB v.taker er.receive none with
            | Except.error e => Except.error e
            | Except.ok (l3, t3) =>
              let r := ProgramAccount.close l3 v.escrow v.taker
              Except.ok (r.1, t1 ++ t2 ++ t3 ++ r.2)

/-- One whole Take invocation (dispatcher path, lib.rs line 24). -/
def takeRun (l : Ledger) (accountList : List AccountView) :
    Except ProgramError (Ledger × List Effect) :=
  match Take.tryFrom l accountList with
  | Except.error e => Except.error e
  | Except.ok (v, l1, t1) =>
    match Take.process v l1 with
    | Except.error e => Except.error e
    | Except.ok (l2, t2) => Except.ok (l2, t1 ++ t2)

/-- `RefundAccounts` (refund.rs lines 10-18). -/
structure RefundAccounts where
  maker : AccountView
  escrow : AccountView
  mintA : AccountView
  vault : AccountView
  makerAtaA : AccountView
  systemProgram : AccountView
  tokenProgram : AccountView
deriving DecidableEq

/-- `RefundAccounts::try_from` (refund.rs lines 20-52): exactly eight
accounts (one trailing unchecked slot); maker signer check, escrow
program-account check, mint-A interface check, associated check on the
vault. -/
def RefundAccounts.tryFrom (accounts : List AccountView) : Except ProgramError RefundAccounts :=
  match accounts with
  | [maker, escrow, mintA, vault, makerAtaA, systemProgram, tokenProgram, _] =>
    seqCheck (SignerAccount.check maker) <|
    seqCheck (ProgramAccount.check escrow) <|
    seqCheck (MintInterface.check mintA) <|
    seqCheck (AssociatedTokenAccount.check vault escrow mintA tokenProgram) <|
    Except.ok ⟨maker, escrow, mintA, vault, makerAtaA, systemProgram, tokenProgram⟩
  | _ => Except.error ProgramError.NotEnoughAccountKeys

/-- `Refund::try_from` (refund.rs lines 57-73): validate the account
list, then create the maker's mint-A holding account on demand, funded
by the maker. -/
def Refund.tryFrom (l : Ledger) (accountList : List AccountView) :
    Except ProgramError (RefundAccounts × Ledger × List Effect) :=
  match RefundAccounts.tryFrom accountList with
  | Except.error e => Except.error e
  | Except.ok v =>
    match AssociatedTokenAccount.initIfNeeded l v.makerAtaA v.mintA v.maker v.maker
        v.systemProgram v.tokenProgram with
    | Except.error e => Except.error e
    | Except.ok (l1, t1) => Except.ok (v, l1, t1)

/-- `Refund::process` (refund.rs lines 77-112): rebuild the escrow's
signing seeds from the stored seed and bump and the SUPPLIED maker —
with no canonical-address cross-check against the escrow account's
address — then move the vault's whole balance to the maker's mint-A
holding under that derived capability, decommission the vault to the
maker, and decommission the escrow account to the maker. -/
def Refund.process (v : RefundAccounts) (l : Ledger) :
    Except ProgramError (Ledger × List Effect) :=
  match l.escrowAcct v.escrow.address with
  | none => Except.error ProgramError.InvalidAccountData
  | some er =>
    let seeds := escrowSeeds v.maker.address er.seed er.bump
    match l.tokenAcct v.vault.address with
    | none => Except.error ProgramError.InvalidAccountData
    | some vs =>
      match transferCpi l v.vault v.makerAtaA v.escrow vs.amount (some seeds) with
      | Except.error e => Except.error e
      | Except.ok (l1, t1) =>
        match closeTokenCpi l1 v.vault v.maker v.escrow (some seeds) with
        | Except.error e => Except.error e
        | Except.ok (l2, t2) =>
          let r := ProgramAccount.close l2 v.escrow v.maker
          Except.ok (r.1, t1 ++ t2 ++ r.2)

/-- One whole Refund invocation (dispatcher path, lib.rs line 25). -/
def refundRun (l : Ledger) (accountList : List AccountView) :
    Except ProgramError (Ledger × List Effect) :=
  match Refund.tryFrom l accountList with
  | Except.error e => Except.error e
  | Except.ok (v, l1, t1) =>
    match Refund.process v l1 with
    | Except.error e => Except.error e
    | Except.ok (l2, t2) => Except.ok (l2, t1 ++ t2)

/-! Concrete fixtures used by the witness theorems below: a maker, a
taker, an attacker, two mints, the escrow of Scenario A (seed 1,
receive 500, amount 1000), and the account views and ledgers the three
operations see. -/

def aMaker : Address := Address.raw [10]

def aTaker : Address := Address.raw [11]

def aAttacker : Address := Address.raw [12]

def aMintA : Address := Address.raw [20]

def aMintB : Address := Address.raw [21]

def makerView : AccountView := ⟨aMaker, systemProgramID, true, 1000, []⟩

def makerViewNoSig : AccountView := ⟨aMaker, systemProgramID, false, 1000, []⟩

def takerView : AccountView := ⟨aTaker, systemProgramID, true, 1000, []⟩

def takeMakerView : AccountView := ⟨aMaker, systemProgramID, false, 50, []⟩

def attackerView : AccountView := ⟨aAttacker, systemProgramID, true, 1000, []⟩

def mintAView : AccountView := ⟨aMintA, tokenProgramID, false, 1, List.replicate 82 0⟩

def mintBView : AccountView := ⟨aMintB, tokenProgramID, false, 1, List.replicate 82 0⟩

def systemProgramView : AccountView := ⟨systemProgramID, Address.raw [77], false, 1, []⟩

def tokenProgramView : AccountView := ⟨tokenProgramID, Address.raw [77], false, 1, []⟩

def extraView : AccountView := ⟨Address.raw [99], systemProgramID, false, 0, []⟩

/-- The canonical escrow address for (maker, seed 1): both the address
Make derives and the stored-record invariant address. -/
def cEscrowAddr : Address :=
  (findProgramAddress [escrowTag, aMaker, Address.raw (u64ToLeBytes 1)] programID).1

def cEscrowRec : EscrowRecord := ⟨1, aMaker, aMintA, aMintB, 500, 255⟩

def makeEscrowView : AccountView := ⟨cEscrowAddr, systemProgramID, false, 0, []⟩

def makerAtaAAddr : Address :=
  (findProgramAddress [aMaker, tokenProgramID, aMintA] associatedTokenProgramID).1

def makerAtaAView : AccountView :=
  ⟨makerAtaAAddr, tokenProgramID, false, 3, List.replicate 165 0⟩

def cVaultAddr : Address :=
  (findProgramAddress [cEscrowAddr, tokenProgramID, aMintA] associatedTokenProgramID).1

def makeVaultView : AccountView := ⟨cVaultAddr, systemProgramID, false, 0, []⟩

def makeAccountsList : List AccountView :=
  [makerView, makeEscrowView, mintAView, mintBView, makerAtaAView, makeVaultView,
   systemProgramView, tokenProgramView, extraView]

def makeAccountsListNoSig : List AccountView :=
  [makerViewNoSig, makeEscrowView, mintAView, mintBView, makerAtaAView, makeVaultView,
   systemProgramView, tokenProgramView, extraView]

def makeLedger : Ledger :=
  { lamports := fun a => if a = aMaker then 1000 else 0,
    tokenAcct := fun a => if a = makerAtaAAddr then some ⟨aMintA, aMaker, 5000⟩ else none,
    escrowAcct := fun _ => none }

def makeData : List Nat := u64ToLeBytes 1 ++ u64ToLeBytes 500 ++ u64ToLeBytes 1000

def makeDataZero : List Nat := u64ToLeBytes 1 ++ u64ToLeBytes 500 ++ u64ToLeBytes 0

def takeEscrowView : AccountView := ⟨cEscrowAddr, programID, false, 115, List.replicate 113 0⟩

def takeVaultView : AccountView := ⟨cVaultAddr, tokenProgramID, false, 166, List.replicate 165 0⟩

def takerAtaAAddr : Address :=
  (findProgramAddress [aTaker, tokenProgramID, aMintA] associatedTokenProgramID).1

def takerAtaAView : AccountView :=
  ⟨takerAtaAAddr, tokenProgramID, false, 166, List.replicate 165 0⟩

def takerAtaBAddr : Address :=
  (findProgramAddress [aTaker, tokenProgramID, aMintB] associatedTokenProgramID).1

def takerAtaBView : AccountView :=
  ⟨takerAtaBAddr, tokenProgramID, false, 166, List.replicate 165 0⟩

def makerAtaBAddr : Address :=
  (findProgramAddress [aMaker, tokenProgramID, aMintB] associatedTokenProgramID).1

def makerAtaBView : AccountView :=
  ⟨makerAtaBAddr, tokenProgramID, false, 166, List.replicate 165 0⟩

def takeFixture : TakeAccounts :=
  ⟨takerView, takeMakerView, takeEscrowView, mintAView, mintBView, takeVaultView,
   takerAtaAView, takerAtaBView, makerAtaBView, systemProgramView, tokenProgramView⟩

def takeLedger : Ledger :=
  { lamports := fun a =>
      if a = aTaker then 1000 else if a = cVaultAddr then 166
      else if a = cEscrowAddr then 115 else 0,
    tokenAcct := fun a =>
      if a = cVaultAddr then some ⟨aMintA, cEscrowAddr, 1000⟩
      else if a = takerAtaAAddr then some ⟨aMintA, aTaker, 0⟩
      else if a = takerAtaBAddr then some ⟨aMintB, aTaker, 500⟩
      else if a = makerAtaBAddr then some ⟨aMintB, aMaker, 0⟩
      else none,
    escrowAcct := fun a => if a = cEscrowAddr then some cEscrowRec else none }

/-- A forged escrow account at a non-canonical raw address whose stored
record is otherwise well-formed: Take's re-derivation must reject it. -/
def c1EscrowView : AccountView := ⟨Address.raw [30], programID, false, 115, List.replicate 113 0⟩

def c1Take : TakeAccounts := { takeFixture with escrow := c1EscrowView }

def c1Ledger : Ledger :=
  { takeLedger with escrowAcct := fun a =>
      if a = Address.raw [30] then some cEscrowRec else none }

/-- A Refund invocation whose first account is a signing attacker, not
the maker stored in the escrow record. -/
def refundAttackList : List AccountView :=
  [attackerView, takeEscrowView, mintAView, takeVaultView, makerAtaAView,
   systemProgramView, tokenProgramView, extraView]

/-- Extended-standard account, 167 data bytes, mint discriminator 0x01
at offset 165: the source accepts it as a mint. -/
def c7MintLong : AccountView :=
  ⟨Address.raw [50], TOKEN_2022_PROGRAM_ID, false, 1, List.replicate 165 7 ++ [1, 9]⟩

/-- Extended-standard account, 166 data bytes, holding discriminator
0x02 at offset 165. -/
def c7HoldLong : AccountView :=
  ⟨Address.raw [51], TOKEN_2022_PROGRAM_ID, false, 1, List.replicate 165 7 ++ [2]⟩

/-- C8: custodial-account decommission (`ProgramAccount::close`)
performs its steps in this mandatory order: tombstone marker write into
the first data byte, whole-balance transfer to the destination, resize
to one byte, release back to the base system — in particular the marker
write strictly precedes the balance transfer and the resize. -/
theorem programAccount_close_ordering (l : Ledger) (account dest : AccountView) :
    (ProgramAccount.close l account dest).2 =
      [Effect.tombstoneWritten account.address,
       Effect.lamportsMoved account.address dest.address (l.lamports account.address),
       Effect.resized account.address 1,
       Effect.released account.address] := rfl

theorem make_tryFrom_count (accounts : List AccountView) (h : accounts.length ≠ 9) :
    MakeAccounts.tryFrom accounts = Except.error ProgramError.NotEnoughAccountKeys := by
  match accounts, h with
  | [], _ => rfl
  | [a1], _ => rfl
  | [a1, a2], _ => rfl
  | [a1, a2, a3], _ => rfl
  | [a1, a2, a3, a4], _ => rfl
  | [a1, a2, a3, a4, a5], _ => rfl
  | [a1, a2, a3, a4, a5, a6], _ => rfl
  | [a1, a2, a3, a4, a5, a6, a7], _ => rfl
  | [a1, a2, a3, a4, a5, a6, a7, a8], _ => rfl
  | [a1, a2, a3, a4, a5, a6, a7, a8, a9], h => exact (h (by simp)).elim
  | a1 :: a2 :: a3 :: a4 :: a5 :: a6 :: a7 :: a8 :: a9 :: a10 :: rest, _ => rfl

theorem take_tryFrom_count (accounts : List AccountView) (h : accounts.length ≠ 12) :
    TakeAccounts.tryFrom accounts = Except.error ProgramError.NotEnoughAccountKeys := by
  match accounts, h with
  | [], _ => rfl
  | [a1], _ => rfl
  | [a1, a2], _ => rfl
  | [a1, a2, a3], _ => rfl
  | [a1, a2, a3, a4], _ => rfl
  | [a1, a2, a3, a4, a5], _ => rfl
  | [a1, a2, a3, a4, a5, a6], _ => rfl
  | [a1, a2, a3, a4, a5, a6, a7], _ => rfl
  | [a1, a2, a3, a4, a5, a6, a7, a8], _ => rfl
  | [a1, a2, a3, a4, a5, a6, a7, a8, a9], _ => rfl
  | [a1, a2, a3, a4, a5, a6, a7, a8, a9, a10], _ => rfl
  | [a1, a2, a3, a4, a5, a6, a7, a8, a9, a10, a11], _ => rfl
  | [a1, a2, a3, a4, a5, a6, a7, a8, a9, a10, a11, a12], h => exact (h (by simp)).elim
  | a1 :: a2 :: a3 :: a4 :: a5 :: a6 :: a7 :: a8 :: a9 :: a10 :: a11 :: a12 :: a13 :: rest, _ =>
    rfl

theorem refund_tryFrom_count (accounts : List AccountView) (h : accounts.length ≠ 8) :
    RefundAccounts.tryFrom accounts = Except.error ProgramError.NotEnoughAccountKeys := by
  match accounts, h with
  | [], _ => rfl
  | [a1], _ => rfl
  | [a1, a2], _ => rfl
  | [a1, a2, a3], _ => rfl
  | [a1, a2, a3, a4], _ => rfl
  | [a1, a2, a3, a4, a5], _ => rfl
  | [a1, a2, a3, a4, a5, a6], _ => rfl
  | [a1, a2, a3, a4, a5, a6, a7], _ => rfl
  | [a1, a2, a3, a4, a5, a6, a7, a8], h => exact (h (by simp)).elim
  | a1 :: a2 :: a3 :: a4 :: a5 :: a6 :: a7 :: a8 :: a9 :: rest, _ => rfl

/-- C10: each operation requires an exact account count — Make 9,
Take 12, Refund 8 (one trailing unchecked slot each); any other length,
fewer or more, fails with NotEnoughAccountKeys before any validation
check or effect. -/
theorem accountList_exact_counts (accounts : List AccountView) :
    (accounts.length ≠ 9 →
      MakeAccounts.tryFrom accounts = Except.error ProgramError.NotEnoughAccountKeys)
    ∧ (accounts.length ≠ 12 →
      TakeAccounts.tryFrom accounts = Except.error ProgramError.NotEnoughAccountKeys)
    ∧ (accounts.length ≠ 8 →
      RefundAccounts.tryFrom accounts = Except.error ProgramError.NotEnoughAccountKeys) :=
  ⟨make_tryFrom_count accounts, take_tryFrom_count accounts, refund_tryFrom_count accounts⟩

theorem accountList_exact_counts_witness :
    MakeAccounts.tryFrom [] = Except.error ProgramError.NotEnoughAccountKeys
    ∧ TakeAccounts.tryFrom [] = Except.error ProgramError.NotEnoughAccountKeys
    ∧ RefundAccounts.tryFrom [] = Except.error ProgramError.NotEnoughAccountKeys :=
  ⟨(accountList_exact_counts []).1 (by decide),
   (accountList_exact_counts []).2.1 (by decide),
   (accountList_exact_counts []).2.2 (by decide)⟩

/-- C6: a Make invocation whose maker did not sign fails — but the
source (make.rs lines 37-39) returns IllegalOwner on that path, not the
MissingRequiredSignature the signer-check contract (`SignerAccount`)
prescribes and Take/Refund use; the second conjunct records that
contract. -/
theorem make_nonsigner_error (maker e ma mb maa vt sp tp x : AccountView)
    (h : maker.isSigner = false) :
    MakeAccounts.tryFrom [maker, e, ma, mb, maa, vt, sp, tp, x]
        = Except.error ProgramError.IllegalOwner
    ∧ SignerAccount.check maker = Except.error ProgramError.MissingRequiredSignature := by
  constructor
  · simp [MakeAccounts.tryFrom, h]
  · simp [SignerAccount.check, h]

theorem make_nonsigner_error_witness :
    MakeAccounts.tryFrom makeAccountsListNoSig = Except.error ProgramError.IllegalOwner
    ∧ SignerAccount.check makerViewNoSig
        = Except.error ProgramError.MissingRequiredSignature :=
  make_nonsigner_error makerViewNoSig makeEscrowView mintAView mintBView makerAtaAView
    makeVaultView systemProgramView tokenProgramView extraView (by decide)

/-- C7 counterexample: the claim places the one-byte type discriminator
at offset 167 and demands failure for any extended account whose data
length does not exceed that offset; this 167-byte extended mint record
(discriminator 0x01 at offset 165) is accepted by the source's check,
refuting the claim as stated. -/
theorem token2022_offset167_claim_false :
    c7MintLong.owner = TOKEN_2022_PROGRAM_ID
    ∧ c7MintLong.data.length = 167
    ∧ c7MintLong.data.length ≤ 167
    ∧ c7MintLong.data.length ≠ mintLEN
    ∧ Mint2022Account.check c7MintLong = Except.ok () :=
  ⟨rfl, by decide, by decide, by decide, rfl⟩

/-- C7 amended: for extended-standard accounts whose data length
differs from the classic fixed record size, the checks read the
one-byte type discriminator at offset 165 (not 167): a length of at
most 165 fails with InvalidAccountData, a wrong discriminator fails
with InvalidAccountData, and the matching tag value passes. -/
theorem token2022_discriminator_at_165 (a : AccountView)
    (hown : a.owner = TOKEN_2022_PROGRAM_ID) :
    (a.data.length ≠ mintLEN →
      Mint2022Account.check a =
        if a.data.length ≤ TOKEN_2022_ACCOUNT_DISCRIMINATOR_OFFSET then
          Except.error ProgramError.InvalidAccountData
        else if a.data.getD TOKEN_2022_ACCOUNT_DISCRIMINATOR_OFFSET 0
            ≠ TOKEN2022_MINT_DISCRIMINATOR then
          Except.error ProgramError.InvalidAccountData
        else Except.ok ())
    ∧ (a.data.length ≠ tokenAccountLEN →
      TokenAccount2022Account.check a =
        if a.data.length ≤ TOKEN_2022_ACCOUNT_DISCRIMINATOR_OFFSET then
          Except.error ProgramError.InvalidAccountData
        else if a.data.getD TOKEN_2022_ACCOUNT_DISCRIMINATOR_OFFSET 0
            ≠ TOKEN_2022_TOKEN_ACCOUNT_DISCRIMINATOR then
          Except.error ProgramError.InvalidAccountData
        else Except.ok ()) := by
  constructor <;> intro hlen
  · simp [Mint2022Account.check, hown, hlen]
  · simp [TokenAccount2022Account.check, hown, hlen]

theorem token2022_discriminator_at_165_witness :
    Mint2022Account.check c7MintLong = Except.ok ()
    ∧ TokenAccount2022Account.check c7HoldLong = Except.ok () := by
  constructor
  · have h := (token2022_discriminator_at_165 c7MintLong rfl).1 (by decide)
    rw [h]; rfl
  · have h := (token2022_discriminator_at_165 c7HoldLong rfl).2 (by decide)
    rw [h]; rfl

/-- C1: in Take, the canonical escrow address recomputed by
create_program_address over the tag, the supplied maker's address, the
stored seed in little-endian bytes and the stored bump, under the
program id, must equal the supplied escrow account's address; any
mismatch fails with InvalidAccountOwner — returned before any transfer
or decommission CPI, so no effect is produced. -/
theorem take_rederivation_mismatch (v : TakeAccounts) (l : Ledger) (er : EscrowRecord)
    (hrec : l.escrowAcct v.escrow.address = some er)
    (hne : createProgramAddress (escrowSeeds v.maker.address er.seed er.bump) programID
      ≠ v.escrow.address) :
    Take.process v l = Except.error ProgramError.InvalidAccountOwner := by
  unfold Take.process
  rw [hrec]
  simp [hne]

theorem take_rederivation_mismatch_witness :
    Take.process c1Take c1Ledger = Except.error ProgramError.InvalidAccountOwner :=
  take_rederivation_mismatch c1Take c1Ledger cEscrowRec (by decide) (by decide)

/-- C9: `AssociatedTokenAccount::init_if_needed` recomputes the
deterministic associated address with the PAYER as the authority, not
the designated owner; so whenever payer and owner differ, an existing,
correct holding account at the owner's canonical associated address does
not satisfy the check and the creation call is issued rather than
skipped. -/
theorem ataInitIfNeeded_payer_as_authority (l : Ledger)
    (account mint payer owner sysP tokP : AccountView)
    (hpo : payer.address ≠ owner.address)
    (hacct : account.address =
      (findProgramAddress [owner.address, tokP.address, mint.address]
        associatedTokenProgramID).1) :
    AssociatedTokenAccount.initIfNeeded l account mint payer owner sysP tokP
      = ataCreateCpi l payer account owner mint tokP := by
  have hne : (findProgramAddress [payer.address, tokP.address, mint.address]
      associatedTokenProgramID).1 ≠ account.address := by
    rw [hacct]
    intro hcontra
    simp only [findProgramAddress, createProgramAddress] at hcontra
    exact hpo (List.cons.inj (Address.pda.inj hcontra).1).1
  unfold AssociatedTokenAccount.initIfNeeded
  cases hTA : TokenAccount.check account with
  | error e => simp [AssociatedTokenAccount.check, hTA]
  | ok u => simp [AssociatedTokenAccount.check, hTA, hne]

theorem ataInitIfNeeded_payer_as_authority_witness :
    AssociatedTokenAccount.initIfNeeded takeLedger makerAtaBView mintBView takerView
        takeMakerView systemProgramView tokenProgramView
      = ataCreateCpi takeLedger takerView makerAtaBView takeMakerView mintBView
          tokenProgramView :=
  ataInitIfNeeded_payer_as_authority takeLedger makerAtaBView mintBView takerView
    takeMakerView systemProgramView tokenProgramView (by decide) (by decide)

theorem transferCpi_ok_spec {l : Ledger} {source dest authority : AccountView}
    {amount : Nat} {seeds : Option (List Address)} {l' : Ledger} {t : List Effect}
    (h : transferCpi l source dest authority amount seeds = Except.ok (l', t)) :
    t = [Effect.tokenTransfer source.address dest.address authority.address amount
          (pdaSignerMatches seeds authority.address)]
    ∧ l'.lamports = l.lamports
    ∧ l'.escrowAcct = l.escrowAcct
    ∧ authoritySigned authority seeds = true
    ∧ ∃ s d, l.tokenAcct source.address = some s
        ∧ s.authority = authority.address
        ∧ amount ≤ s.amount
        ∧ Function.update l.tokenAcct source.address
            (some { s with amount := s.amount - amount }) dest.address = some d
        ∧ l'.tokenAcct = Function.update
            (Function.update l.tokenAcct source.address
              (some { s with amount := s.amount - amount }))
            dest.address (some { d with amount := d.amount + amount }) := by
  unfold transferCpi at h
  split at h
  · rename_i s d0 hsrc hdst
    split at h
    · simp at h
    · rename_i hauth
      split at h
      · simp at h
      · rename_i hsig
        split at h
        · simp at h
        · rename_i hamt
          split at h
          · rename_i d hd
            split at h
            · simp at h
            · rename_i hmint
              injection h with hpair
              obtain ⟨hl, ht⟩ := Prod.mk.inj hpair
              subst hl
              subst ht
              refine ⟨rfl, rfl, rfl, ?_, s, d, hsrc, ?_, ?_, hd, rfl⟩
              · simp at hsig; exact hsig
              · simpa using hauth
              · omega
          · simp at h
  · simp at h

theorem closeTokenCpi_ok_spec {l : Ledger} {account dest authority : AccountView}
    {seeds : Option (List Address)} {l' : Ledger} {t : List Effect}
    (h : closeTokenCpi l account dest authority seeds = Except.ok (l', t)) :
    t = [Effect.tokenAccountClosed account.address dest.address (l.lamports account.address)]
    ∧ l'.escrowAcct = l.escrowAcct
    ∧ l'.tokenAcct = Function.update l.tokenAcct account.address none
    ∧ l'.lamports = Function.update
        (Function.update l.lamports dest.address
          (l.lamports dest.address + l.lamports account.address))
        account.address 0 := by
  unfold closeTokenCpi at h
  split at h
  · rename_i s hacct
    split at h
    · simp at h
    · split at h
      · simp at h
      · split at h
        · simp at h
        · injection h with hpair
          obtain ⟨hl, ht⟩ := Prod.mk.inj hpair
          subst hl
          subst ht
          exact ⟨rfl, rfl, rfl, rfl⟩
  · simp at h

theorem createEscrowAccountCpi_ok_spec {l : Ledger} {payer account : AccountView}
    {space : Nat} {seeds : Option (List Address)} {l' : Ledger} {t : List Effect}
    (h : createEscrowAccountCpi l payer account space seeds = Except.ok (l', t)) :
    t = [Effect.accountCreated account.address space programID]
    ∧ l.escrowAcct account.address = none
    ∧ l.tokenAcct account.address = none
    ∧ authoritySigned account seeds = true
    ∧ l'.tokenAcct = l.tokenAcct
    ∧ l'.escrowAcct = Function.update l.escrowAcct account.address
        (some ⟨0, Address.raw [], Address.raw [], Address.raw [], 0, 0⟩)
    ∧ l'.lamports = Function.update
        (Function.update l.lamports payer.address
          (l.lamports payer.address - rentMinimum space))
        account.address (rentMinimum space) := by
  unfold createEscrowAccountCpi at h
  split at h
  · simp at h
  · rename_i hsig
    split at h
    · simp at h
    · split at h
      · simp at h
      · rename_i hvac
        split at h
        · simp at h
        · injection h with hpair
          obtain ⟨hl, ht⟩ := Prod.mk.inj hpair
          subst hl
          subst ht
          push_neg at hvac
          refine ⟨rfl, hvac.1, hvac.2.1, ?_, rfl, rfl, rfl⟩
          simp at hsig
          exact hsig

theorem ataCreateCpi_ok_spec {l : Ledger} {payer account wallet mint tokenProgram : AccountView}
    {l' : Ledger} {t : List Effect}
    (h : ataCreateCpi l payer account wallet mint tokenProgram = Except.ok (l', t)) :
    t = [Effect.ataCreated account.address mint.address wallet.address payer.address]
    ∧ (findProgramAddress [wallet.address, tokenProgram.address, mint.address]
        associatedTokenProgramID).1 = account.address
    ∧ l.tokenAcct account.address = none
    ∧ l'.escrowAcct = l.escrowAcct
    ∧ l'.tokenAcct = Function.update l.tokenAcct account.address
        (some ⟨mint.address, wallet.address, 0⟩)
    ∧ l'.lamports = Function.update
        (Function.update l.lamports payer.address
          (l.lamports payer.address - rentMinimum tokenAccountLEN))
        account.address (rentMinimum tokenAccountLEN) := by
  unfold ataCreateCpi at h
  split at h
  · simp at h
  · rename_i haddr
    split at h
    · simp at h
    · split at h
      · simp at h
      · rename_i hvac
        split at h
        · simp at h
        · injection h with hpair
          obtain ⟨hl, ht⟩ := Prod.mk.inj hpair
          subst hl
          subst ht
          refine ⟨rfl, by simpa using haddr, by simpa using hvac, rfl, rfl, rfl⟩

theorem transferCpi_not_signed {l : Ledger} {source dest authority : AccountView}
    {amount : Nat} {seeds : Option (List Address)}
    (hsig : authoritySigned authority seeds = false) :
    (transferCpi l source dest authority amount seeds).isOk = false := by
  unfold transferCpi
  repeat' split
  all_goals rfl

theorem MakeInstructionData_tryFrom_zero {data : List Nat}
    (hlen : data.length = 24)
    (hzero : u64FromLeBytes (List.drop 16 data) = 0) :
    MakeInstructionData.tryFrom data = Except.error ProgramError.InvalidInstructionData := by
  simp [MakeInstructionData.tryFrom, hlen, hzero]

/-- C5: a Make invocation whose 24-byte payload decodes to amount = 0
fails with InvalidInstructionData; the payload is rejected inside
`Make::try_from` before the escrow-account creation, the vault creation,
the record population and the token transfer, so the error invocation
produces no ledger and no effect. -/
theorem make_zero_amount_rejected (l : Ledger) (data : List Nat)
    (accounts : List AccountView)
    (hacc : (MakeAccounts.tryFrom accounts).isOk = true)
    (hlen : data.length = 24)
    (hzero : u64FromLeBytes (List.drop 16 data) = 0) :
    makeRun l data accounts = Except.error ProgramError.InvalidInstructionData := by
  have hdata := MakeInstructionData_tryFrom_zero hlen hzero
  unfold makeRun Make.tryFrom
  cases hA : MakeAccounts.tryFrom accounts with
  | error e => rw [hA] at hacc; simp [Except.isOk, Except.toBool] at hacc
  | ok a => simp [hA, hdata]

theorem make_zero_amount_rejected_witness :
    makeRun makeLedger makeDataZero makeAccountsList
      = Except.error ProgramError.InvalidInstructionData :=
  make_zero_amount_rejected makeLedger makeDataZero makeAccountsList
    (by decide) (by decide) (by decide)

theorem refundAccounts_tryFrom_ok {mk e ma vt maa sp tp x : AccountView}
    {r : RefundAccounts}
    (h : RefundAccounts.tryFrom [mk, e, ma, vt, maa, sp, tp, x] = Except.ok r) :
    r = ⟨mk, e, ma, vt, maa, sp, tp⟩ := by
  simp only [RefundAccounts.tryFrom, seqCheck] at h
  repeat' split at h
  all_goals simp_all

theorem initIfNeeded_ok_escrowAcct {l : Ledger}
    {account mint payer owner sysP tokP : AccountView} {l' : Ledger} {t : List Effect}
    (h : AssociatedTokenAccount.initIfNeeded l account mint payer owner sysP tokP
      = Except.ok (l', t)) :
    l'.escrowAcct = l.escrowAcct := by
  unfold AssociatedTokenAccount.initIfNeeded at h
  split at h
  · injection h with hpair
    obtain ⟨hl, _⟩ := Prod.mk.inj hpair
    subst hl
    rfl
  · exact (ataCreateCpi_ok_spec h).2.2.2.1

theorem Refund.tryFrom_ok_spec {l : Ledger} {mk e ma vt maa sp tp x : AccountView}
    {v : RefundAccounts} {l1 : Ledger} {t1 : List Effect}
    (h : Refund.tryFrom l [mk, e, ma, vt, maa, sp, tp, x] = Except.ok (v, l1, t1)) :
    v = ⟨mk, e, ma, vt, maa, sp, tp⟩ ∧ l1.escrowAcct = l.escrowAcct := by
  unfold Refund.tryFrom at h
  split at h
  · simp at h
  · rename_i v0 hv0
    have hveq := refundAccounts_tryFrom_ok hv0
    subst hveq
    split at h
    · simp at h
    · rename_i l1' t1' hinit
      injection h with hpair
      obtain ⟨hv, hrest⟩ := Prod.mk.inj hpair
      obtain ⟨hl, ht⟩ := Prod.mk.inj hrest
      subst hl
      exact ⟨hv.symm, initIfNeeded_ok_escrowAcct hinit⟩

theorem refundAccounts_check_fail {mk e ma vt maa sp tp x : AccountView}
    (hchk : (ProgramAccount.check e).isOk = false) :
    (RefundAccounts.tryFrom [mk, e, ma, vt, maa, sp, tp, x]).isOk = false := by
  simp only [RefundAccounts.tryFrom, seqCheck]
  cases hc : ProgramAccount.check e with
  | ok u => rw [hc] at hchk; simp [Except.isOk, Except.toBool] at hchk
  | error e0 =>
    cases hs : SignerAccount.check mk with
    | error e1 => rfl
    | ok u => rfl

/-- C2: Refund fails whenever the caller (the supplied maker, a
transaction signer) is not the maker stored in the escrow record —
given the record invariant that the escrow account sits at its
canonical derived address, the reconstructed signing seeds derive a
different address, so the vault transfer's signature requirement cannot
be met — and Refund fails whenever the escrow account fails the
program-owned owner/size check.  (Unlike Take, no canonical-address
cross-check is performed; the failure arises only at the signed CPI.) -/
theorem refund_wrong_caller_or_bad_escrow_fails (l : Ledger)
    (mk e ma vt maa sp tp x : AccountView) :
    (∀ er : EscrowRecord,
      l.escrowAcct e.address = some er →
      e.address = canonicalEscrowAddress er →
      e.isSigner = false →
      mk.address ≠ er.maker →
      (refundRun l [mk, e, ma, vt, maa, sp, tp, x]).isOk = false)
    ∧ ((ProgramAccount.check e).isOk = false →
      (refundRun l [mk, e, ma, vt, maa, sp, tp, x]).isOk = false) := by
  constructor
  · intro er hrec hinv hsgn hne
    cases hTF : Refund.tryFrom l [mk, e, ma, vt, maa, sp, tp, x] with
    | error e0 => unfold refundRun; rw [hTF]; rfl
    | ok res =>
      obtain ⟨v, l1, t1⟩ := res
      obtain ⟨hv, hesc⟩ := Refund.tryFrom_ok_spec hTF
      subst hv
      have hrec1 : l1.escrowAcct e.address = some er := by rw [hesc]; exact hrec
      have hsigfail : authoritySigned e
          (some (escrowSeeds mk.address er.seed er.bump)) = false := by
        simp only [authoritySigned, hsgn, pdaSignerMatches, Bool.false_or]
        rw [decide_eq_false_iff_not]
        rw [hinv]
        intro hcontra
        unfold canonicalEscrowAddress createProgramAddress escrowSeeds at hcontra
        exact hne (List.cons.inj (List.cons.inj (Address.pda.inj hcontra).1).2).1
      have hproc : (Refund.process ⟨mk, e, ma, vt, maa, sp, tp⟩ l1).isOk = false := by
        unfold Refund.process
        dsimp only
        rw [hrec1]
        cases hvs : l1.tokenAcct vt.address with
        | none => rfl
        | some vs =>
          have hTfail := @transferCpi_not_signed l1 vt maa e vs.amount
            (some (escrowSeeds mk.address er.seed er.bump)) hsigfail
          cases hT : transferCpi l1 vt maa e vs.amount
              (some (escrowSeeds mk.address er.seed er.bump)) with
          | error e1 => simp [hT, Except.isOk, Except.toBool]
          | ok r => rw [hT] at hTfail; simp [Except.isOk, Except.toBool] at hTfail
      cases hP : Refund.process ⟨mk, e, ma, vt, maa, sp, tp⟩ l1 with
      | error e1 => simp [refundRun, hTF, hP, Except.isOk, Except.toBool]
      | ok r => rw [hP] at hproc; simp [Except.isOk, Except.toBool] at hproc
  · intro hchk
    have hacc := @refundAccounts_check_fail mk e ma vt maa sp tp x hchk
    unfold refundRun Refund.tryFrom
    cases hA : RefundAccounts.tryFrom [mk, e, ma, vt, maa, sp, tp, x] with
    | error e0 => rfl
    | ok r => rw [hA] at hacc; simp [Except.isOk, Except.toBool] at hacc

theorem refund_wrong_caller_or_bad_escrow_fails_witness :
    (refundRun takeLedger refundAttackList).isOk = false :=
  (refund_wrong_caller_or_bad_escrow_fails takeLedger attackerView takeEscrowView
      mintAView takeVaultView makerAtaAView systemProgramView tokenProgramView
      extraView).1
    cEscrowRec (by decide) (by decide) (by decide) (by decide)

theorem makeAccounts_tryFrom_ok {mk e ma mb maa vt sp tp x : AccountView}
    {a : MakeAccounts}
    (h : MakeAccounts.tryFrom [mk, e, ma, mb, maa, vt, sp, tp, x] = Except.ok a) :
    a = ⟨mk, e, ma, mb, maa, vt, sp, tp⟩ := by
  simp only [MakeAccounts.tryFrom, seqCheck] at h
  repeat' split at h
  all_goals simp_all

theorem MakeInstructionData_ok_amount {data : List Nat} {idat : MakeInstructionData}
    (h : MakeInstructionData.tryFrom data = Except.ok idat) :
    idat.amount ≠ 0 := by
  simp only [MakeInstructionData.tryFrom] at h
  split at h
  · simp at h
  · split at h
    · simp at h
    · rename_i hzero
      injection h with h'
      subst h'
      simpa using hzero

theorem Make.process_ok_spec {m : Make} {l : Ledger} {l' : Ledger} {t : List Effect}
    (h : Make.process m l = Except.ok (l', t)) :
    ∃ z lT tT,
      l.escrowAcct m.accounts.escrow.address = some z
      ∧ transferCpi
          { l with
            escrowAcct := Function.update l.escrowAcct m.accounts.escrow.address
              (some ⟨m.instructionData.seed, m.accounts.maker.address,
                m.accounts.mintA.address, m.accounts.mintB.address,
                m.instructionData.receive, m.bump⟩) }
          m.accounts.makerAtaA m.accounts.vault m.accounts.maker
          m.instructionData.amount none = Except.ok (lT, tT)
      ∧ l' = lT
      ∧ t = Effect.escrowWritten m.accounts.escrow.address
            ⟨m.instructionData.seed, m.accounts.maker.address, m.accounts.mintA.address,
              m.accounts.mintB.address, m.instructionData.receive, m.bump⟩ :: tT := by
  unfold Make.process at h
  split at h
  · simp at h
  · rename_i z hz
    dsimp only at h
    split at h
    · simp at h
    · rename_i lT tT hT
      injection h with hpair
      obtain ⟨hl, ht⟩ := Prod.mk.inj hpair
      exact ⟨z, lT, tT, hz, hT, hl.symm, ht.symm⟩

/-- C3: a successful Make with amount > 0 leaves the vault holding
exactly `amount` of mint A under the escrow's authority, leaves the
escrow record holding exactly (payload seed, maker address, mint A,
mint B, payload receive, canonical bump), and touches no state beyond
the four accounts the operation names (maker's lamports, the created
escrow and vault, and the debited maker holding account). -/
theorem make_postcondition (l : Ledger) (data : List Nat)
    (mk e ma mb maa vt sp tp x : AccountView) (seed receive amount : Nat)
    (hdata : MakeInstructionData.tryFrom data = Except.ok ⟨seed, receive, amount⟩)
    (hok : (makeRun l data [mk, e, ma, mb, maa, vt, sp, tp, x]).isOk = true) :
    (makeRun l data [mk, e, ma, mb, maa, vt, sp, tp, x]).map
        (fun r => r.1.tokenAcct vt.address)
      = Except.ok (some ⟨ma.address, e.address, amount⟩)
    ∧ (makeRun l data [mk, e, ma, mb, maa, vt, sp, tp, x]).map
        (fun r => r.1.escrowAcct e.address)
      = Except.ok (some ⟨seed, mk.address, ma.address, mb.address, receive, 255⟩)
    ∧ 0 < amount
    ∧ ∀ a : Address, a ≠ mk.address → a ≠ e.address → a ≠ vt.address → a ≠ maa.address →
        (makeRun l data [mk, e, ma, mb, maa, vt, sp, tp, x]).map
            (fun r => (r.1.lamports a, r.1.tokenAcct a, r.1.escrowAcct a))
          = Except.ok (l.lamports a, l.tokenAcct a, l.escrowAcct a) := by
  have hampos : amount ≠ 0 := by simpa using MakeInstructionData_ok_amount hdata
  cases hrun0 : makeRun l data [mk, e, ma, mb, maa, vt, sp, tp, x] with
  | error er => rw [hrun0] at hok; simp [Except.isOk, Except.toBool] at hok
  | ok res =>
    obtain ⟨lf, tf⟩ := res
    have hrun := hrun0
    unfold makeRun at hrun
    split at hrun
    · simp at hrun
    · rename_i m l1 t1 hTF
      split at hrun
      · simp at hrun
      · rename_i l2 t2 hPR
        injection hrun with hpair
        obtain ⟨hlf, htf⟩ := Prod.mk.inj hpair
        subst hlf
        unfold Make.tryFrom at hTF
        split at hTF
        · simp at hTF
        · rename_i acc hacc
          have haccEq := makeAccounts_tryFrom_ok hacc
          subst haccEq
          split at hTF
          · simp at hTF
          · rename_i idat hidat
            have h12 := hdata.symm.trans hidat
            injection h12 with h13
            subst h13
            dsimp only at hTF
            split at hTF
            · simp at hTF
            · rename_i l1' t1' hCR
              split at hTF
              · simp at hTF
              · rename_i l2' t2' hATA
                injection hTF with hpair2
                obtain ⟨hm, hrest⟩ := Prod.mk.inj hpair2
                obtain ⟨hl1, ht1⟩ := Prod.mk.inj hrest
                subst hm
                subst hl1
                obtain ⟨_, _, _, _, hcTok, hcEsc, hcLam⟩ :=
                  createEscrowAccountCpi_ok_spec hCR
                obtain ⟨_, _, haN, haE, haT, haL⟩ := ataCreateCpi_ok_spec hATA
                obtain ⟨z, lT, tT, hz, hT, hlT, htT⟩ := Make.process_ok_spec hPR
                obtain ⟨hTt, hTlam, hTesc, _, s0, d0, hs0, _, hs0amt, hd0, hTtok⟩ :=
                  transferCpi_ok_spec hT
                subst hlT
                dsimp only at hs0 hd0 hTtok hTlam hTesc
                have hmv : vt.address ≠ maa.address := by
                  intro contra
                  have hvtok : l2'.tokenAcct maa.address
                      = some ⟨ma.address, e.address, 0⟩ := by
                    rw [haT, ← contra, Function.update_same]
                  rw [hvtok] at hs0
                  injection hs0 with hs0'
                  rw [← hs0'] at hs0amt
                  simp at hs0amt
                  exact hampos hs0amt
                have hd0v : d0 = ⟨ma.address, e.address, 0⟩ := by
                  rw [Function.update_noteq hmv, haT, Function.update_same] at hd0
                  injection hd0 with hd0'
                  exact hd0'.symm
                refine ⟨?_, ?_, Nat.pos_of_ne_zero hampos, ?_⟩
                · dsimp only [Except.map]
                  rw [hTtok, Function.update_same, hd0v]
                  simp
                · dsimp only [Except.map]
                  rw [hTesc, Function.update_same]
                  rfl
                · intro a ha1 ha2 ha3 ha4
                  dsimp only [Except.map]
                  refine congrArg Except.ok ?_
                  refine Prod.ext ?_ (Prod.ext ?_ ?_)
                  · dsimp only
                    rw [hTlam, haL, Function.update_noteq ha3, Function.update_noteq ha1,
                      hcLam, Function.update_noteq ha2, Function.update_noteq ha1]
                  · dsimp only
                    rw [hTtok, Function.update_noteq ha3, Function.update_noteq ha4,
                      haT, Function.update_noteq ha3, hcTok]
                  · dsimp only
                    rw [hTesc, Function.update_noteq ha2, haE, hcEsc,
                      Function.update_noteq ha2]

theorem make_postcondition_witness :
    (makeRun makeLedger makeData makeAccountsList).map
        (fun r => r.1.tokenAcct makeVaultView.address)
      = Except.ok (some ⟨aMintA, cEscrowAddr, 1000⟩)
    ∧ (makeRun makeLedger makeData makeAccountsList).map
        (fun r => r.1.escrowAcct makeEscrowView.address)
      = Except.ok (some ⟨1, aMaker, aMintA, aMintB, 500, 255⟩) :=
  ⟨(make_postcondition makeLedger makeData makerView makeEscrowView mintAView mintBView
      makerAtaAView makeVaultView systemProgramView tokenProgramView extraView
      1 500 1000 (by rfl) (by decide)).1,
   (make_postcondition makeLedger makeData makerView makeEscrowView mintAView mintBView
      makerAtaAView makeVaultView systemProgramView tokenProgramView extraView
      1 500 1000 (by rfl) (by decide)).2.1⟩

/-- C4: a successful Take performs exactly these effects, in one
invocation: the vault's entire balance moves to the taker's mint-A
holding account under the escrow's derived signing authority (the PDA
flag on the transfer is true); the vault is decommissioned with its
reclaimed lamport balance sent to the maker; exactly the stored
`receive` amount of mint B moves from the taker's to the maker's
holding account authorized directly by the taker (PDA flag false); and
the escrow account is decommissioned — tombstone, reclaimed balance to
the taker, resize, release. -/
theorem take_settlement_effects (v : TakeAccounts) (l : Ledger)
    (er : EscrowRecord) (vs : TokenAccountState)
    (hrec : l.escrowAcct v.escrow.address = some er)
    (hvs : l.tokenAcct v.vault.address = some vs)
    (hem : v.escrow.address ≠ v.maker.address)
    (hev : v.escrow.address ≠ v.vault.address)
    (hok : (Take.process v l).isOk = true) :
    (Take.process v l).map Prod.snd = Except.ok
      [Effect.tokenTransfer v.vault.address v.takerAtaA.address v.escrow.address
        vs.amount true,
       Effect.tokenAccountClosed v.vault.address v.maker.address
        (l.lamports v.vault.address),
       Effect.tokenTransfer v.takerAtaB.address v.makerAtaB.address v.taker.address
        er.receive false,
       Effect.tombstoneWritten v.escrow.address,
       Effect.lamportsMoved v.escrow.address v.taker.address
        (l.lamports v.escrow.address),
       Effect.resized v.escrow.address 1,
       Effect.released v.escrow.address] := by
  cases hrun0 : Take.process v l with
  | error e0 => rw [hrun0] at hok; simp [Except.isOk, Except.toBool] at hok
  | ok res =>
    obtain ⟨lf, tf⟩ := res
    have hrun := hrun0
    unfold Take.process at hrun
    rw [hrec] at hrun
    dsimp only at hrun
    split at hrun
    · simp at hrun
    · rename_i hkey
      rw [hvs] at hrun
      dsimp only at hrun
      split at hrun
      · simp at hrun
      · rename_i l1 t1 hT1
        split at hrun
        · simp at hrun
        · rename_i l2 t2 hT2
          split at hrun
          · simp at hrun
          · rename_i l3 t3 hT3
            injection hrun with hpair
            obtain ⟨hlf, htf⟩ := Prod.mk.inj hpair
            obtain ⟨ht1e, h1lam, _, _, _⟩ := transferCpi_ok_spec hT1
            obtain ⟨ht2e, _, _, h2lam⟩ := closeTokenCpi_ok_spec hT2
            obtain ⟨ht3e, h3lam, _, _, _⟩ := transferCpi_ok_spec hT3
            have hpda : pdaSignerMatches
                (some (escrowSeeds v.maker.address er.seed er.bump)) v.escrow.address
                  = true := by
              simp only [pdaSignerMatches, decide_eq_true_eq]
              exact not_not.mp hkey
            have h1v : l1.lamports v.vault.address = l.lamports v.vault.address := by
              rw [h1lam]
            have h3e : l3.lamports v.escrow.address = l.lamports v.escrow.address := by
              rw [h3lam, h2lam, Function.update_noteq hev, Function.update_noteq hem,
                h1lam]
            dsimp only [Except.map]
            refine congrArg Except.ok ?_
            rw [← htf, ht1e, ht2e, ht3e]
            simp only [ProgramAccount.close]
            rw [h1v, h3e, hpda]
            simp [pdaSignerMatches]

theorem take_settlement_effects_witness :
    (Take.process takeFixture takeLedger).map Prod.snd = Except.ok
      [Effect.tokenTransfer cVaultAddr takerAtaAAddr cEscrowAddr 1000 true,
       Effect.tokenAccountClosed cVaultAddr aMaker 166,
       Effect.tokenTransfer takerAtaBAddr makerAtaBAddr aTaker 500 false,
       Effect.tombstoneWritten cEscrowAddr,
       Effect.lamportsMoved cEscrowAddr aTaker 115,
       Effect.resized cEscrowAddr 1,
       Effect.released cEscrowAddr] :=
  take_settlement_effects takeFixture takeLedger cEscrowRec ⟨aMintA, cEscrowAddr, 1000⟩
    (by decide) (by decide) (by decide) (by decide) (by decide)

end Blueshift
